import Mathlib

/-!
Verification of the glancr search-and-preview pipeline.

This file gives a shallow embedding of the core of the program
(`src/main.rs`, `src/preview.rs`, `src/config.rs`) and proves or refutes
the frozen claims about it.

Modelling conventions:
* Rust byte strings (`&str` contents, `&[u8]` buffers) are `List Nat`
  (each element a byte value); slicing a `&str` at byte offsets is
  modelled by `sliceB`, which returns `none` exactly when the Rust
  slice expression would panic (out of range or not on a UTF-8
  character boundary).
* Fallible Rust code whose failure aborts the process (a panic) is
  modelled with `Option`: a `none` result corresponds to a panic.
* The external regex engine (`grep::regex::RegexMatcher`) is modelled
  abstractly: a compiled regex is a `RegexM` (a byte-level find
  function); compilation is a function `String → Option RegexM`
  supplied by the environment.  Concrete literal patterns are
  instantiated with a substring matcher, matching the engine's
  behaviour on literal patterns.
* The external fuzzy matcher and the syntect syntax highlighter are
  likewise abstract functions carried in an environment structure.
* File-system reads are modelled by an `FsFile` record carrying the
  results the code can observe: the `fs::metadata` size, whether
  open/read succeeds, and the file's lines as byte strings.
-/

set_option autoImplicit false
set_option maxRecDepth 8192

namespace Glancr

/-! ## Byte-string utilities -/

/-- UTF-8 encoding of one Unicode scalar value (by its code point). -/
def encodeChar (n : Nat) : List Nat :=
  if n < 128 then [n]
  else if n < 2048 then [192 + n / 64, 128 + n % 64]
  else if n < 65536 then [224 + n / 4096, 128 + (n / 64) % 64, 128 + n % 64]
  else [240 + n / 262144, 128 + (n / 4096) % 64, 128 + (n / 64) % 64, 128 + n % 64]

/-- The UTF-8 bytes of a Lean string literal, as a `List Nat`. -/
def utf8 (s : String) : List Nat :=
  (s.data.map (fun c => encodeChar c.toNat)).flatten

/-- Is `b` a UTF-8 continuation byte (`0x80..=0xBF`)? -/
def isCont (b : Nat) : Bool := 128 ≤ b && b < 192

/-- UTF-8 validity of a byte string, as checked by `str::from_utf8`
(rejecting overlong encodings, surrogates and values above U+10FFFF). -/
def utf8ValidB : List Nat → Bool
  | [] => true
  | b :: rest =>
    if b < 128 then utf8ValidB rest
    else if 194 ≤ b && b ≤ 223 then
      match rest with
      | c1 :: r => isCont c1 && utf8ValidB r
      | [] => false
    else if b == 224 then
      match rest with
      | c1 :: c2 :: r => (160 ≤ c1 && c1 ≤ 191) && isCont c2 && utf8ValidB r
      | _ => false
    else if 225 ≤ b && b ≤ 236 then
      match rest with
      | c1 :: c2 :: r => isCont c1 && isCont c2 && utf8ValidB r
      | _ => false
    else if b == 237 then
      match rest with
      | c1 :: c2 :: r => (128 ≤ c1 && c1 ≤ 159) && isCont c2 && utf8ValidB r
      | _ => false
    else if 238 ≤ b && b ≤ 239 then
      match rest with
      | c1 :: c2 :: r => isCont c1 && isCont c2 && utf8ValidB r
      | _ => false
    else if b == 240 then
      match rest with
      | c1 :: c2 :: c3 :: r => (144 ≤ c1 && c1 ≤ 191) && isCont c2 && isCont c3 && utf8ValidB r
      | _ => false
    else if 241 ≤ b && b ≤ 243 then
      match rest with
      | c1 :: c2 :: c3 :: r => isCont c1 && isCont c2 && isCont c3 && utf8ValidB r
      | _ => false
    else if b == 244 then
      match rest with
      | c1 :: c2 :: c3 :: r => (128 ≤ c1 && c1 ≤ 143) && isCont c2 && isCont c3 && utf8ValidB r
      | _ => false
    else false

/-- `str::is_char_boundary`: `0` and the length are always boundaries,
interior positions must not point at a continuation byte. -/
def isBoundaryB (s : List Nat) (i : Nat) : Bool :=
  i == 0 || i == s.length || (decide (i < s.length) && !isCont (s.getD i 0))

/-- Rust `&s[a..b]` on a `&str`: `none` exactly when Rust would panic
(range out of order, out of bounds, or not on character boundaries). -/
def sliceB (s : List Nat) (a b : Nat) : Option (List Nat) :=
  if decide (a ≤ b) && decide (b ≤ s.length) && isBoundaryB s a && isBoundaryB s b then
    some ((s.drop a).take (b - a))
  else none

/-- ASCII whitespace bytes, the fragment of `char::is_whitespace`
relevant to the two-byte git status column. -/
def wsByte (b : Nat) : Bool :=
  b == 32 || b == 9 || b == 10 || b == 13 || b == 11 || b == 12

/-- Split a byte string at every `\n` (the newline bytes are dropped;
a trailing part is always produced, possibly empty). -/
def splitNl : List Nat → List (List Nat)
  | [] => [[]]
  | b :: r =>
    if b == 10 then [] :: splitNl r
    else
      match splitNl r with
      | h :: t => (b :: h) :: t
      | [] => [[b]]

/-- Drop a single trailing `\r` byte (for `\r\n` line endings). -/
def stripCr (l : List Nat) : List Nat :=
  if l.getLast? == some 13 then l.dropLast else l

/-- Rust `str::lines`: split at `\n` or `\r\n`; the final line ending is
optional, and `\r` is stripped only when it precedes a `\n`. -/
def linesOf (s : List Nat) : List (List Nat) :=
  let parts := splitNl s
  if parts.getLast? == some ([] : List Nat) then parts.dropLast.map stripCr
  else parts.dropLast.map stripCr ++ parts.getLast?.toList

/-- Does `hay` start with `needle`? -/
def beginsWith : List Char → List Char → Bool
  | [], _ => true
  | _ :: _, [] => false
  | a :: as, b :: bs => a == b && beginsWith as bs

/-- Rust `str::contains` for a literal pattern: substring containment. -/
def containsSub (needle : List Char) : List Char → Bool
  | [] => beginsWith needle []
  | b :: bs => beginsWith needle (b :: bs) || containsSub needle bs

/-- Rust `str::to_lowercase`, restricted to the ASCII lowering the
ignore rules actually exercise. -/
def lowerStr (s : List Char) : List Char := s.map Char.toLower

/-- Split a path string at every `/`. -/
def splitSlash : List Char → List (List Char)
  | [] => [[]]
  | c :: r =>
    if c == '/' then [] :: splitSlash r
    else
      match splitSlash r with
      | h :: t => (c :: h) :: t
      | [] => [[c]]

/-- `Path::file_name().and_then(|n| n.to_str())`: the last normal path
component (empty and `.` components are skipped; a trailing `..` has no
file name). -/
def fileNameOf (p : List Char) : Option (List Char) :=
  let comps := (splitSlash p).filter (fun c => !(c == []) && !(c == ['.']))
  match comps.getLast? with
  | some c => if c == ['.', '.'] then none else some c
  | none => none

/-! ## Styled spans and lines (the `ratatui` output fragments the code builds) -/

/-- The colors the program uses: `Color::DarkGray`, `Color::Yellow` and
syntax-highlight colors `Color::Rgb(r, g, b)`. -/
inductive Col where
  | darkGray
  | yellow
  | rgb (r g b : Nat)
deriving DecidableEq, Repr

/-- A `ratatui` `Span`: text plus foreground, background and bold flag. -/
structure Span where
  text : List Nat
  fg : Option Col := none
  bg : Option Col := none
  bold : Bool := false
deriving DecidableEq, Repr

/-- A `ratatui` `Line`: a sequence of spans. -/
structure RLine where
  spans : List Span
deriving DecidableEq, Repr

/-- `Span::raw`: unstyled text. -/
def rawSpan (s : List Nat) : Span := ⟨s, none, none, false⟩

/-- `Text::raw(s)`: a single line holding a single unstyled span. -/
def textRaw (s : List Nat) : List RLine := [⟨[rawSpan s]⟩]

/-! ## The regex engine, modelled abstractly -/

/-- A compiled `grep::regex::RegexMatcher`: `find` returns the byte
range of the first match in a byte string, if any. -/
structure RegexM where
  find : List Nat → Option (Nat × Nat)

/-- `Matcher::is_match`: a match exists. -/
def RegexM.isMatch (rm : RegexM) (s : List Nat) : Bool := (rm.find s).isSome

/-- First index at which `pat` occurs as a sublist of `s`. -/
def findSub (pat : List Nat) : List Nat → Option Nat
  | [] => if pat == [] then some 0 else none
  | b :: bs =>
    if pat.isPrefixOf (b :: bs) then some 0
    else (findSub pat bs).map (fun i => i + 1)

/-- The regex engine's behaviour on a literal pattern: plain substring
search.  Used to instantiate `RegexM` at concrete literal queries. -/
def substrRM (pat : List Nat) : RegexM :=
  ⟨fun s => (findSub pat s).map (fun i => (i, i + pat.length))⟩

/-- The line scan performed by a `grep` `Searcher` with
`BinaryDetection::quit(0)` and a sink that stops at the first match:
returns the reported line number (first line numbered `k`).  A line
that is not valid UTF-8 makes the `UTF8` sink fail, and a NUL byte
makes the searcher quit; both end the search with no match. -/
def searchScan (rm : RegexM) : List (List Nat) → Nat → Option Nat
  | [], _ => none
  | l :: ls, k =>
    if !utf8ValidB l || l.contains 0 then none
    else if rm.isMatch l then some k
    else searchScan rm ls (k + 1)

/-- Modelled from the spec: "the 1-based line number of the first line
of the file matching the regex (None when no line matches)".  This is
the specification-side description of the scroll target, to be compared
with the code's searcher-based computation. -/
def firstMatchingLineNum (rm : RegexM) (lines : List (List Nat)) : Option Nat :=
  (lines.findIdx? rm.isMatch).map (fun i => i + 1)

/-! ## Configuration (`src/config.rs`) and ignore rules (`src/main.rs`) -/

/-- The `Config` struct from `src/config.rs`. -/
structure Config where
  open_command : String
  ignored_dirs : List (List Char)
  ignored_patterns : List (List Char)

/-- `default_ignored_dirs()` from `src/config.rs`. -/
def defaultIgnoredDirs : List (List Char) :=
  [("/.git/").toList, ("/node_modules/").toList, ("/target/").toList,
   ("/dist/").toList, ("/build/").toList, ("/.idea/").toList,
   ("/.vscode/").toList, ("/vendor/").toList, ("/.next/").toList,
   ("/coverage/").toList, ("/yarn.lock").toList, ("/.yarn/").toList]

/-- `default_ignored_patterns()` from `src/config.rs`. -/
def defaultIgnoredPatterns : List (List Char) :=
  [(".lock").toList, (".log").toList, (".map").toList, (".min.js").toList,
   (".min.css").toList, (".bundle.").toList, (".cache").toList]

/-- `Config::default()` from `src/config.rs`. -/
def defaultConfig : Config :=
  ⟨("cursor"), defaultIgnoredDirs, defaultIgnoredPatterns⟩

/-- The hardcoded `ignored_dirs` array inside `should_ignore_path`
(`src/main.rs`). -/
def mainIgnoredDirs : List (List Char) :=
  [("/.git/").toList, ("/node_modules/").toList, ("/target/").toList,
   ("/dist/").toList, ("/build/").toList, ("/.idea/").toList,
   ("/.vscode/").toList, ("/vendor/").toList, ("/.next/").toList,
   ("/coverage/").toList, ("/yarn.lock").toList, ("/.yarn/").toList]

/-- The hardcoded `ignored_patterns` array inside `should_ignore_path`
(`src/main.rs`). -/
def mainIgnoredPatterns : List (List Char) :=
  [(".lock").toList, (".log").toList, (".map").toList, (".min.js").toList,
   (".min.css").toList, (".bundle.").toList, (".cache").toList]

/-- `should_ignore_path` from `src/main.rs`: lowercase the lossy path
string, check the hardcoded directory markers as substrings of it, then
check the hardcoded filename patterns as substrings of the lowercased
file name.  Note the configured lists play no part. -/
def should_ignore_path (p : List Char) : Bool :=
  let path_str := lowerStr p
  if mainIgnoredDirs.any (fun d => containsSub d path_str) then true
  else
    match fileNameOf p with
    | some fn =>
      if mainIgnoredPatterns.any (fun pat => containsSub pat (lowerStr fn)) then true
      else false
    | none => false

/-- Modelled from the spec: "a path is ignored if and only if its
normalized path string contains some marker of that configuration's
directory list or its lowercased file name contains some pattern of
that configuration's pattern list (case-insensitive substring
containment)". -/
def configShouldIgnore (cfg : Config) (p : List Char) : Bool :=
  cfg.ignored_dirs.any (fun d => containsSub (lowerStr d) (lowerStr p)) ||
    (match fileNameOf p with
     | some fn => cfg.ignored_patterns.any (fun pat => containsSub (lowerStr pat) (lowerStr fn))
     | none => false)

/-! ## Binary detection and the discovery filter (`src/main.rs`) -/

/-- `is_binary_file` from `src/main.rs`.  `openOk` is whether
`File::open` succeeds; `readRes` is the result of the initial `read`
into the 1024-byte buffer (`none` for an `Err`): any NUL among the
bytes read classifies the file as binary, and every failure path
returns `false`. -/
def is_binary_file (openOk : Bool) (readRes : Option (List Nat)) : Bool :=
  if openOk then
    match readRes with
    | some buf => (buf.take 1024).any (fun b => b == 0)
    | none => false
  else false

/-- The walker's filter closure in `filter_files` (`src/main.rs`):
keep regular files that are neither ignored nor binary, with the
checks in that order. -/
def walkKeep (isFile ignored binary : Bool) : Bool :=
  if !isFile then false
  else if ignored then false
  else !binary

/-! ## `App::get_dirty_files` (`src/main.rs`) -/

/-- One line of `git status --porcelain` output: take `&line[0..2]` and
`&line[3..]` (either slice panics on a short line), then keep the path
when the status column is not blank.  The outer `Option` is the panic
monad; the inner `Option` distinguishes skipped lines. -/
def dirtyLine (line : List Nat) : Option (Option (List Nat)) := do
  let status ← sliceB line 0 2
  let filePath ← sliceB line 3 line.length
  if status.all wsByte then pure none else pure (some filePath)

/-- `filter_map` over the status lines, propagating panics. -/
def dirtyLinesGo : List (List Nat) → Option (List (List Nat))
  | [] => some []
  | l :: ls => do
    let r ← dirtyLine l
    let rest ← dirtyLinesGo ls
    pure (r.elim rest (fun p => p :: rest))

/-- `App::get_dirty_files`: `gitLaunchOk` is whether the `git` command
could be executed at all (`Command::output` returning `Ok`); on failure
the code calls `panic!`.  `stdout` is the captured standard output. -/
def getDirtyFiles (gitLaunchOk : Bool) (stdout : List Nat) : Option (List (List Nat)) :=
  if gitLaunchOk then dirtyLinesGo (linesOf stdout) else none

/-! ## The match-splitting pass of the preview (`src/preview.rs`) -/

/-- The inner byte loop of the match-highlight pass: for each byte
index `idx` in the match range, emit the pending plain text and a
one-byte bold span with a `DarkGray` background; afterwards emit the
tail.  `fuel` counts the remaining iterations.  All slices are the
panicking `&text[..]` slices of the source. -/
def hmLoop (t : List Nat) (fg : Col) : Nat → Nat → Nat → List Span → Option (List Span)
  | 0, _, lastIdx, acc =>
    if lastIdx < t.length then
      match sliceB t lastIdx t.length with
      | some s => some (acc ++ [⟨s, some fg, none, false⟩])
      | none => none
    else some acc
  | fuel + 1, idx, lastIdx, acc => do
    let acc ←
      if lastIdx < idx then do
        let s ← sliceB t lastIdx idx
        pure (acc ++ [⟨s, some fg, none, false⟩])
      else pure acc
    let m ← sliceB t idx (idx + 1)
    hmLoop t fg fuel (idx + 1) (idx + 1) (acc ++ [⟨m, some fg, some Col.darkGray, true⟩])

/-- The match-highlight pass of `get_file_preview` applied to one
highlighted span's text `t` with foreground `fg`, for a regex match at
byte range `[ms, me)`.  `none` models a panic. -/
def highlightMatchSpans (t : List Nat) (fg : Col) (ms me : Nat) : Option (List Span) :=
  hmLoop t fg (me - ms) ms 0 []

/-! ## The file-system model -/

/-- A file as the program can observe it: the `fs::metadata` size
(`none` when the metadata call fails, e.g. the path does not exist),
whether `File::open`/reading succeeds, and the file's lines as byte
strings (line terminators stripped). -/
structure FsFile where
  path : List Nat
  metaSize : Option Nat
  readable : Bool
  lines : List (List Nat)
deriving DecidableEq

/-- `fs::read_to_string`: succeeds iff the file is readable and its
content is valid UTF-8, yielding the lines. -/
def readToString (f : FsFile) : Option (List (List Nat)) :=
  if f.readable && f.lines.all utf8ValidB then some f.lines else none

/-- The on-disk byte size of a newline-terminated line list (each line
contributes its bytes plus one `\n`). -/
def fsSize (lines : List (List Nat)) : Nat :=
  (lines.map (fun l => l.length + 1)).foldr (fun a b => a + b) 0

/-! ## The App filter pipeline (`src/main.rs`) -/

/-- `SearchMode` from `src/main.rs`. -/
inductive SearchMode where
  | Filename
  | Contents
deriving DecidableEq

/-- `FileFilter` from `src/main.rs`. -/
inductive FileFilter where
  | All
  | Dirty
  | ChangedFromDefault
deriving DecidableEq

/-- The external collaborators `filter_files` consults: the result of
the directory walk (already filtered by the walker's closure), the
result of a successful `get_dirty_files` call, the fuzzy matcher
(`SkimMatcherV2::fuzzy_match(path, query).is_some()`), and regex
compilation `RegexMatcher::new(query).ok()`. -/
structure FilterEnv where
  walkFiles : List FsFile
  dirtyFiles : List FsFile
  fuzzy : List Nat → String → Bool
  compile : String → Option RegexM

/-- The fields of `App` that the filter pipeline reads and writes. -/
structure AppState where
  files : List FsFile
  filtered_files : List FsFile
  selected_index : Nat
  query : String
  search_mode : SearchMode
  file_filter : FileFilter

/-- `App::filter_by_filename`: keep files whose path fuzzy-matches. -/
def filter_by_filename (env : FilterEnv) (query : String) (files : List FsFile) : List FsFile :=
  files.filter (fun f => env.fuzzy f.path query)

/-- Does `searcher.search_path` find a match in `f`?  An unreadable
path or a sink/search error leaves `found = false`. -/
def contentsFileMatch (rm : RegexM) (f : FsFile) : Bool :=
  f.readable && (searchScan rm f.lines 1).isSome

/-- `App::filter_by_contents`: `rc` is `RegexMatcher::new(query).ok()`;
a failed compilation clears the filtered list. -/
def filter_by_contents (rc : Option RegexM) (files : List FsFile) : List FsFile :=
  match rc with
  | some rm => files.filter (contentsFileMatch rm)
  | none => []

/-- `App::filter_files`: rebuild the base set according to the file
filter, return the base unchanged on an empty query (note: before the
index clamp), otherwise dispatch on the search mode and clamp
`selected_index` to `min(old, len - 1)` (saturating). -/
def filter_files (env : FilterEnv) (st : AppState) : AppState :=
  let files :=
    match st.file_filter with
    | .All => env.walkFiles
    | .Dirty => env.dirtyFiles
    | .ChangedFromDefault => env.dirtyFiles
  let st := { st with files := files }
  if st.query.isEmpty then { st with filtered_files := st.files }
  else
    let filtered :=
      match st.search_mode with
      | .Filename => filter_by_filename env st.query st.files
      | .Contents => filter_by_contents (env.compile st.query) st.files
    { st with
      filtered_files := filtered,
      selected_index := Nat.min st.selected_index (filtered.length - 1) }

/-! ## The preview builder (`src/preview.rs`) -/

/-- `MAX_FILE_SIZE` from `src/preview.rs`: the 512 KiB threshold. -/
def MAX_FILE_SIZE : Nat := 1024 * 512

/-- `MAX_LINES_TO_FORMAT` from `src/preview.rs`. -/
def MAX_LINES_TO_FORMAT : Nat := 1000

/-- The external collaborators of the preview: regex compilation and
the syntect highlighter.  `hl i line` is the result of
`highlight_line` on the `i`-th line under the grammar resolved for the
file (grammar resolution always succeeds, falling back to plain text);
it returns foreground-colored ranges whose texts concatenate to the
line, or an error. -/
structure PreviewEnv where
  compile : String → Option RegexM
  hl : Nat → List Nat → Except Unit (List ((Nat × Nat × Nat) × List Nat))

/-- `format!("{:4} ", n)`: the line number right-aligned to (at least)
width four, followed by a space. -/
def fmtNum (n : Nat) : List Nat :=
  let ds := (toString n).toList.map Char.toNat
  List.replicate (4 - ds.length) 32 ++ ds ++ [32]

/-- The `DarkGray` line-number span. -/
def numSpan (n : Nat) : Span := ⟨fmtNum n, some Col.darkGray, none, false⟩

/-- Render one syntect range: with an active content query whose regex
finds a match in the range's text, run the match-splitting byte loop;
otherwise emit the single foreground-colored span. -/
def renderSpan (rc : Option RegexM) (active : Bool) (rgb : Nat × Nat × Nat)
    (t : List Nat) : Option (List Span) :=
  let fg := Col.rgb rgb.1 rgb.2.1 rgb.2.2
  if active then
    match rc with
    | some rm =>
      match rm.find t with
      | some (ms, me) => highlightMatchSpans t fg ms me
      | none => some [⟨t, some fg, none, false⟩]
    | none => some [⟨t, some fg, none, false⟩]
  else some [⟨t, some fg, none, false⟩]

/-- Render every syntect range of one line, propagating panics. -/
def renderRanges (rc : Option RegexM) (active : Bool) :
    List ((Nat × Nat × Nat) × List Nat) → Option (List (List Span))
  | [] => some []
  | r :: rs => do
    let s ← renderSpan rc active r.1 r.2
    let rest ← renderRanges rc active rs
    pure (s :: rest)

/-- Render one line of the normal path: the line-number span followed
by the highlighted ranges; a `highlight_line` error replaces the whole
line with the literal error line. -/
def renderLine (env : PreviewEnv) (rc : Option RegexM) (active : Bool)
    (idx : Nat) (line : List Nat) : Option RLine :=
  match env.hl idx line with
  | .ok ranges =>
    match renderRanges rc active ranges with
    | some spanLists => some ⟨numSpan (idx + 1) :: spanLists.flatten⟩
    | none => none
  | .error _ => some ⟨[rawSpan (utf8 ("Error reading file"))]⟩

/-- Render the processed lines of the normal path, numbering from
`idx`, propagating panics. -/
def renderLines (env : PreviewEnv) (rc : Option RegexM) (active : Bool) :
    Nat → List (List Nat) → Option (List RLine)
  | _, [] => some []
  | idx, l :: ls => do
    let ln ← renderLine env rc active idx l
    let rest ← renderLines env rc active (idx + 1) ls
    pure (ln :: rest)

/-- The warning line prepended by the large-file path. -/
def warnLarge : RLine :=
  ⟨[⟨utf8 ("⚠️  Large file detected - showing plain text without syntax highlighting"),
     some Col.yellow, none, false⟩]⟩

/-- The truncation notice appended by the normal path. -/
def truncLine : RLine :=
  ⟨[⟨utf8 ("⚠️  File truncated - showing first 1000 lines only"),
     some Col.yellow, none, false⟩]⟩

/-- The line loop of `get_large_file_preview`: a line that fails to
read as UTF-8 is skipped (but still consumes its index); a matching
line under an active content query records the first match (as `u16`)
and is emitted as one whole-line bold `DarkGray`-background span;
every other line is emitted as a raw span.  Line numbers are prefixed
throughout. -/
def largeLoop (rc : Option RegexM) (active : Bool) :
    List (List Nat) → Nat → Option Nat → List RLine × Option Nat
  | [], _, fm => ([], fm)
  | l :: ls, idx, fm =>
    if utf8ValidB l then
      let n := idx + 1
      let isM := active && (rc.elim false (fun rm => rm.isMatch l))
      let fm' := if isM then fm.or (some (n % 65536)) else fm
      let sp := if isM then Span.mk l none (some Col.darkGray) true else rawSpan l
      let res := largeLoop rc active ls (idx + 1) fm'
      (⟨[numSpan n, sp]⟩ :: res.1, res.2)
    else largeLoop rc active ls (idx + 1) fm

/-- `get_large_file_preview` from `src/preview.rs`. -/
def get_large_file_preview (env : PreviewEnv) (f : FsFile) (query : String)
    (mode : SearchMode) : List RLine × Option Nat :=
  if !f.readable then (textRaw (utf8 ("Unable to read file")), none)
  else
    let active := !query.isEmpty && mode == SearchMode.Contents
    let rc := env.compile query
    let res := largeLoop rc active (f.lines.take MAX_LINES_TO_FORMAT) 0 none
    (warnLarge :: res.1, res.2)

/-- `get_file_preview` from `src/preview.rs`.  The outer `Option` is
the panic monad (the match-splitting byte loop can panic); the returned
pair is the styled text and the scroll target. -/
def get_file_preview (env : PreviewEnv) (f : FsFile) (query : String)
    (mode : SearchMode) : Option (List RLine × Option Nat) :=
  match f.metaSize with
  | none => some (textRaw (utf8 ("Unable to read file metadata")), none)
  | some sz =>
    if sz > MAX_FILE_SIZE then some (get_large_file_preview env f query mode)
    else
      match readToString f with
      | none => some (textRaw (utf8 ("Unable to read file")), none)
      | some lines =>
        let active := !query.isEmpty && mode == SearchMode.Contents
        let firstMatch :=
          if active then
            match env.compile query with
            | some rm => searchScan rm lines 1
            | none => none
          else none
        let scrollTo := firstMatch.map (fun n => n % 65536)
        match renderLines env (env.compile query) active 0 (lines.take MAX_LINES_TO_FORMAT) with
        | some body =>
          let body := if lines.length > MAX_LINES_TO_FORMAT then body ++ [truncLine] else body
          some (body, scrollTo)
        | none => none

/-! ## Helper lemmas -/

/-- A successful `&str` slice. -/
theorem sliceB_isSome {s : List Nat} {a b : Nat} (h1 : a ≤ b) (h2 : b ≤ s.length)
    (h3 : isBoundaryB s a = true) (h4 : isBoundaryB s b = true) :
    sliceB s a b = some ((s.drop a).take (b - a)) := by
  simp [sliceB, h1, h2, h3, h4]

/-- `0` is always a character boundary. -/
theorem isBoundaryB_zero (s : List Nat) : isBoundaryB s 0 = true := by
  simp [isBoundaryB]

/-- The length is always a character boundary. -/
theorem isBoundaryB_length (s : List Nat) : isBoundaryB s s.length = true := by
  simp [isBoundaryB]

/-- A lowering-invariant marker list can drop the lowering on the
marker side of the containment check. -/
theorem any_lower_eq (L : List (List Char)) (h : L.map lowerStr = L) (s : List Char) :
    (L.any fun d => containsSub (lowerStr d) s) = L.any fun d => containsSub d s := by
  induction L with
  | nil => rfl
  | cons a L ih =>
    simp only [List.map_cons, List.cons.injEq] at h
    simp [List.any_cons, h.1, ih h.2]

end Glancr

namespace Glancr

/-! ## Claim C5: empty query is the identity filter -/

/-- C5.  For every file set and both search modes, filtering with the
empty query returns the base set unchanged (same entries, same order):
after `filter_files` with an empty query, `filtered_files` equals the
freshly selected base `files`, whatever the file filter chose. -/
theorem C5_empty_query_identity (env : FilterEnv) (files filtered : List FsFile)
    (idx : Nat) (mode : SearchMode) (ff : FileFilter) :
    (filter_files env ⟨files, filtered, idx, (""), mode, ff⟩).filtered_files
      = (filter_files env ⟨files, filtered, idx, (""), mode, ff⟩).files := by
  cases ff <;> rfl

/-! ## Claim C6: invalid regex in Contents mode yields the empty set -/

/-- C6.  For every query whose regex compilation fails
(`RegexMatcher::new(query).ok() == None`) and every file set,
`filter_by_contents` returns the empty filtered set — the total
function returns normally, no error reaches the caller. -/
theorem C6_invalid_regex_empty_set (compile : String → Option RegexM) (q : String)
    (files : List FsFile) (h : compile q = none) :
    filter_by_contents (compile q) files = [] := by
  rw [h]; rfl

def envC6 : FilterEnv := ⟨[], [], fun _ _ => true, fun _ => none⟩

def sampleFile : FsFile := ⟨utf8 ("a.rs"), some 4, true, [utf8 ("fn")]⟩

/-- Witness for C6 at the unbalanced-group query of the spec. -/
theorem C6_witness :
    filter_by_contents (envC6.compile ("(")) [sampleFile] = [] :=
  C6_invalid_regex_empty_set envC6.compile ("(") [sampleFile] rfl

/-! ## Claim C10: an unreadable file is never classified binary -/

/-- C10.  If `File::open` fails or the initial read fails,
`is_binary_file` returns `false`, so the walker's filter keeps the file
whenever the file-type and ignore checks keep it: the binary check
never drops an unreadable file. -/
theorem C10_unreadable_not_binary (openOk : Bool) (readRes : Option (List Nat))
    (h : openOk = false ∨ readRes = none) :
    is_binary_file openOk readRes = false
    ∧ ∀ isF ign : Bool, walkKeep isF ign (is_binary_file openOk readRes) = (isF && !ign) := by
  have hb : is_binary_file openOk readRes = false := by
    rcases h with h | h
    · rw [h]; rfl
    · rw [h]; cases openOk <;> rfl
  refine ⟨hb, fun isF ign => ?_⟩
  rw [hb]; cases isF <;> cases ign <;> rfl

/-- Witness for C10 at a failed open. -/
theorem C10_witness :
    is_binary_file false none = false
    ∧ walkKeep true false (is_binary_file false none) = (true && !false) :=
  ⟨(C10_unreadable_not_binary false none (Or.inl rfl)).1,
   (C10_unreadable_not_binary false none (Or.inl rfl)).2 true false⟩

/-! ## Claim C1: the selection-index clamp is skipped on an empty query -/

def envC1 : FilterEnv :=
  ⟨[], [⟨utf8 ("a.rs"), some 1, true, []⟩, ⟨utf8 ("b.txt"), some 1, true, []⟩],
   fun _ _ => true, fun _ => none⟩

def stC1 : AppState := ⟨[], [], 2, (""), SearchMode.Contents, FileFilter.Dirty⟩

/-- C1 (bug evaluation).  With a prior `selected_index` of 2, an empty
query and a base-set change to two dirty files, `filter_files` returns
early before the clamp: the resulting state has two filtered files but
`selected_index` still 2, violating `selected_index < len` — the next
preview indexes `filtered_files[2]` out of range. -/
theorem C1_clamp_skipped_on_empty_query :
    (filter_files envC1 stC1).filtered_files.length = 2
    ∧ (filter_files envC1 stC1).selected_index = 2
    ∧ ¬ (filter_files envC1 stC1).selected_index
          < (filter_files envC1 stC1).filtered_files.length := by
  refine ⟨rfl, rfl, ?_⟩
  decide

/-! ## Claim C3: the nonexistent-path placeholder string -/

def envT : PreviewEnv := ⟨fun _ => none, fun _ _ => .ok []⟩

def fMissing : FsFile := ⟨utf8 ("nonexistent_file.txt"), none, false, []⟩

/-- C3 (bug evaluation).  For a path whose metadata cannot be read (a
nonexistent path), for every query and mode, `get_file_preview` returns
the single-line placeholder `"Unable to read file metadata"` with no
scroll target — not the string `"Unable to read file"` that the claim
(and the repository's own `test_file_preview_nonexistent_file` test)
require. -/
theorem C3_metadata_placeholder (q : String) (mode : SearchMode) :
    get_file_preview envT fMissing q mode
      = some (textRaw (utf8 ("Unable to read file metadata")), none)
    ∧ (textRaw (utf8 ("Unable to read file metadata"))).length = 1
    ∧ utf8 ("Unable to read file metadata") ≠ utf8 ("Unable to read file") :=
  ⟨rfl, rfl, by decide⟩

/-! ## Claim C4: the configuration does not drive the ignore decision -/

/-- C4 counterexample.  Under a configuration whose marker and pattern
lists are both empty, the spec-side predicate ignores nothing, yet the
code still ignores a `node_modules` path: the claimed equivalence with
the configured lists is false. -/
theorem C4_counterexample :
    should_ignore_path (("/a/node_modules/b.rs").toList) = true
    ∧ configShouldIgnore ⟨("cursor"), [], []⟩ (("/a/node_modules/b.rs").toList) = false := by
  constructor
  · decide
  · rfl

/-- C4 (amended).  `should_ignore_path` coincides everywhere with the
spec's configured-list predicate applied to the built-in default
configuration — the decision is determined by the default lists alone,
regardless of any loaded configuration. -/
theorem C4_default_lists_decide_ignore (p : List Char) :
    should_ignore_path p = configShouldIgnore defaultConfig p := by
  have hdirs : defaultIgnoredDirs.map lowerStr = defaultIgnoredDirs := by decide
  have hpats : defaultIgnoredPatterns.map lowerStr = defaultIgnoredPatterns := by decide
  have hd : mainIgnoredDirs = defaultIgnoredDirs := rfl
  have hp : mainIgnoredPatterns = defaultIgnoredPatterns := rfl
  simp only [should_ignore_path, configShouldIgnore, defaultConfig, hd, hp,
    any_lower_eq defaultIgnoredDirs hdirs, any_lower_eq defaultIgnoredPatterns hpats]
  cases h1 : defaultIgnoredDirs.any fun d => containsSub d (lowerStr p) <;>
    cases h2 : fileNameOf p <;>
    simp [h1, h2] <;>
    cases h3 : defaultIgnoredPatterns.any fun pat => containsSub pat (lowerStr _) <;>
    simpa using h3

/-! ## Claim C2: panic-freedom of the fail-soft pipeline -/

/-- A status line long enough, with character boundaries where the code
slices, is processed without panic. -/
theorem dirtyLine_isSome {l : List Nat} (h1 : 3 ≤ l.length)
    (h2 : isBoundaryB l 2 = true) (h3 : isBoundaryB l 3 = true) :
    (dirtyLine l).isSome = true := by
  have s1 := sliceB_isSome (s := l) (a := 0) (b := 2) (by omega) (by omega)
    (isBoundaryB_zero l) h2
  have s2 := sliceB_isSome (s := l) (a := 3) (b := l.length) h1 le_rfl h3
    (isBoundaryB_length l)
  unfold dirtyLine
  rw [s1, s2]
  simp
  split <;> rfl

/-- All lines sliceable implies the whole status parse succeeds. -/
theorem dirtyLinesGo_isSome : ∀ ls : List (List Nat),
    (∀ l ∈ ls, 3 ≤ l.length ∧ isBoundaryB l 2 = true ∧ isBoundaryB l 3 = true) →
    (dirtyLinesGo ls).isSome = true
  | [], _ => rfl
  | l :: ls, h => by
    have hl := h l (by simp)
    have hrest := dirtyLinesGo_isSome ls (fun x hx => h x (by simp [hx]))
    have h1 := dirtyLine_isSome hl.1 hl.2.1 hl.2.2
    obtain ⟨r, hr⟩ := Option.isSome_iff_exists.mp h1
    obtain ⟨rest, hrest2⟩ := Option.isSome_iff_exists.mp hrest
    simp [dirtyLinesGo, hr, hrest2]

/-- The match-splitting byte loop succeeds as long as every position it
slices at is a character boundary. -/
theorem hmLoop_isSome (t : List Nat) (c : Col) :
    ∀ (fuel idx lastIdx : Nat) (acc : List Span),
      idx + fuel ≤ t.length →
      (∀ j, j ≤ idx + fuel → idx ≤ j → isBoundaryB t j = true) →
      isBoundaryB t lastIdx = true → lastIdx ≤ idx →
      (hmLoop t c fuel idx lastIdx acc).isSome = true := by
  intro fuel
  induction fuel with
  | zero =>
    intro idx lastIdx acc _ _ hblast _
    unfold hmLoop
    by_cases h : lastIdx < t.length
    · rw [sliceB_isSome (Nat.le_of_lt h) le_rfl hblast (isBoundaryB_length t)]
      simp [h]
    · simp [h]
  | succ f ih =>
    intro idx lastIdx acc hlen hbnd hblast hle
    unfold hmLoop
    have hidx : idx ≤ t.length := by omega
    have hbIdx : isBoundaryB t idx = true := hbnd idx (by omega) le_rfl
    have hbIdx1 : isBoundaryB t (idx + 1) = true := hbnd (idx + 1) (by omega) (by omega)
    have s2 := sliceB_isSome (s := t) (a := idx) (b := idx + 1) (by omega) (by omega)
      hbIdx hbIdx1
    by_cases h : lastIdx < idx
    · have s1 := sliceB_isSome (s := t) (a := lastIdx) (b := idx) (by omega) hidx
        hblast hbIdx
      simp only [h, if_true, s1, s2, Option.bind_some, Option.some_bind, Option.pure_def]
      exact ih (idx + 1) (idx + 1) _ (by omega)
        (fun j hj1 hj2 => hbnd j (by omega) (by omega)) hbIdx1 le_rfl
    · simp only [h, if_false, s2, Option.bind_some, Option.some_bind, Option.pure_def]
      exact ih (idx + 1) (idx + 1) _ (by omega)
        (fun j hj1 hj2 => hbnd j (by omega) (by omega)) hbIdx1 le_rfl

/-- C2 counterexample.  The code can abort the process: a failed launch
of the `git` command hits the explicit `panic!`, and a status line
shorter than three bytes makes `&line[0..2]`/`&line[3..]` panic.  Both
are modelled by a `none` result. -/
theorem C2_counterexample :
    getDirtyFiles false [] = none ∧ getDirtyFiles true (utf8 ("x\n")) = none := by
  constructor
  · rfl
  · decide

/-- C2 (amended).  The dirty-files source returns a list provided git
launches and every status line is at least three bytes with character
boundaries at offsets 2 and 3, and the match-highlight pass returns a
result for every match range lying on character boundaries of the span
text (in particular always for ASCII text). -/
theorem C2_no_panic_on_sliceable_input :
    (∀ stdout : List Nat,
        (∀ l ∈ linesOf stdout,
            3 ≤ l.length ∧ isBoundaryB l 2 = true ∧ isBoundaryB l 3 = true) →
        (getDirtyFiles true stdout).isSome = true)
    ∧ (∀ (t : List Nat) (c : Col) (ms me : Nat), ms ≤ me → me ≤ t.length →
        (∀ j, j ≤ me → ms ≤ j → isBoundaryB t j = true) →
        (highlightMatchSpans t c ms me).isSome = true) := by
  constructor
  · intro stdout h
    exact dirtyLinesGo_isSome (linesOf stdout) h
  · intro t c ms me h1 h2 h3
    unfold highlightMatchSpans
    exact hmLoop_isSome t c (me - ms) ms 0 [] (by omega)
      (fun j hj1 hj2 => h3 j (by omega) (by omega)) (isBoundaryB_zero t) (Nat.zero_le ms)

/-- Witness for C2 (amended) at a porcelain status line and an ASCII
match range. -/
theorem C2_witness :
    (getDirtyFiles true (utf8 (" M a.rs\n"))).isSome = true
    ∧ (highlightMatchSpans (utf8 ("hello")) (Col.rgb 9 9 9) 1 3).isSome = true :=
  ⟨C2_no_panic_on_sliceable_input.1 (utf8 (" M a.rs\n")) (by decide),
   C2_no_panic_on_sliceable_input.2 (utf8 ("hello")) (Col.rgb 9 9 9) 1 3
     (by decide) (by decide) (by decide)⟩

/-! ## Scroll-target lemmas (claims C7, C8, C9) -/

/-- On NUL-free, valid-UTF-8 lines, the searcher scan starting at line
number `s + 1` reports exactly one more than the index found by
`findIdx?` starting at `s`. -/
theorem searchScan_eq (rm : RegexM) : ∀ (lines : List (List Nat)) (s : Nat),
    lines.all utf8ValidB = true → lines.all (fun l => !l.contains 0) = true →
    searchScan rm lines (s + 1) = (lines.findIdx? rm.isMatch s).map (fun i => i + 1)
  | [], _, _, _ => rfl
  | l :: ls, s, hv, hn => by
    simp only [List.all_cons, Bool.and_eq_true] at hv hn
    have hnl : l.contains 0 = false := by simpa using hn.1
    simp only [searchScan, List.findIdx?, hv.1, hnl, Bool.not_true, Bool.false_or,
      Bool.or_false, if_false, Bool.false_eq_true]
    cases hm : rm.isMatch l
    · simp only [Bool.false_eq_true, if_false]
      exact searchScan_eq rm ls (s + 1) hv.2 hn.2
    · simp

/-- Skipping a block of non-matching, clean lines advances the scan's
line counter. -/
theorem searchScan_replicate (rm : RegexM) (a : List Nat)
    (hv : utf8ValidB a = true) (hn : a.contains 0 = false) (hm : rm.isMatch a = false) :
    ∀ (n k : Nat) (rest : List (List Nat)),
      searchScan rm (List.replicate n a ++ rest) k = searchScan rm rest (k + n)
  | 0, k, rest => by simp
  | n + 1, k, rest => by
    simp only [List.replicate_succ, List.cons_append]
    simp only [searchScan, hv, hn, hm, Bool.not_true, Bool.false_or, Bool.or_false,
      if_false, Bool.false_eq_true]
    have he : k + 1 + n = k + (n + 1) := by omega
    rw [searchScan_replicate rm a hv hn hm n (k + 1) rest, he]

/-- `all` over a replicated element. -/
theorem all_replicate {α : Type} (p : α → Bool) (a : α) (h : p a = true) :
    ∀ n : Nat, (List.replicate n a).all p = true
  | 0 => rfl
  | n + 1 => by simp [List.replicate_succ, h, all_replicate p a h n]

/-- Taking a prefix of a long enough replicated block. -/
theorem take_replicate_append {α : Type} (a : α) :
    ∀ (n m : Nat) (r : List α), n ≤ m →
      List.take n (List.replicate m a ++ r) = List.replicate n a
  | 0, _, _, _ => by simp
  | n + 1, m, r, h => by
    cases m with
    | zero => exact (Nat.not_succ_le_zero n h).elim
    | succ m =>
      simp only [List.replicate_succ, List.cons_append, List.take_succ_cons]
      rw [take_replicate_append a n m r (by omega)]

/-- Byte size of a replicated block of lines. -/
theorem fsSize_replicate_append (a : List Nat) :
    ∀ (n : Nat) (r : List (List Nat)),
      fsSize (List.replicate n a ++ r) = n * (a.length + 1) + fsSize r
  | 0, r => by simp [fsSize]
  | n + 1, r => by
    simp only [List.replicate_succ, List.cons_append]
    have h : fsSize (a :: (List.replicate n a ++ r))
        = (a.length + 1) + fsSize (List.replicate n a ++ r) := rfl
    rw [h, fsSize_replicate_append a n r]
    ring

/-- A line whose single highlighted range has no regex match renders
without panic. -/
theorem renderLine_plain (env : PreviewEnv) (rm : RegexM) (i : Nat) (a : List Nat)
    (c : Nat × Nat × Nat) (hhl : env.hl i a = .ok [(c, a)]) (hfind : rm.find a = none) :
    (renderLine env (some rm) true i a).isSome = true := by
  simp [renderLine, hhl, renderRanges, renderSpan, hfind]

/-- The scroll target produced by the normal (small-file) path is the
searcher scan truncated to 16 bits, whenever rendering succeeds. -/
theorem preview_normal_scroll (env : PreviewEnv) (f : FsFile) (q : String) (rm : RegexM)
    (n : Nat) (hq : q.isEmpty = false) (hc : env.compile q = some rm)
    (hm : f.metaSize = some n) (hsz : ¬ n > MAX_FILE_SIZE)
    (hread : readToString f = some f.lines) (body : List RLine)
    (hrl : renderLines env (some rm) true 0 (f.lines.take MAX_LINES_TO_FORMAT) = some body) :
    (get_file_preview env f q SearchMode.Contents).map (fun p => p.2)
      = some ((searchScan rm f.lines 1).map (fun v => v % 65536)) := by
  unfold get_file_preview
  rw [hm]
  simp only [if_neg hsz]
  rw [hread]
  simp only [hq, hc, Bool.not_false, Bool.true_and, beq_self_eq_true, if_true, and_self]
  rw [hrl]
  cases hlen : decide (f.lines.length > MAX_LINES_TO_FORMAT) <;> simp [hlen]

/-- Rendering a block of identical panic-free lines succeeds and
yields one output line per input line. -/
theorem renderLines_replicate (env : PreviewEnv) (rc : Option RegexM) (active : Bool)
    (a : List Nat) (hline : ∀ i, (renderLine env rc active i a).isSome = true) :
    ∀ (n i : Nat), ∃ out, renderLines env rc active i (List.replicate n a) = some out
      ∧ out.length = n
  | 0, i => ⟨[], rfl, rfl⟩
  | n + 1, i => by
    obtain ⟨ln, hln⟩ := Option.isSome_iff_exists.mp (hline i)
    obtain ⟨out, hout, hlen⟩ := renderLines_replicate env rc active a hline n (i + 1)
    refine ⟨ln :: out, ?_, by simp [hlen]⟩
    simp [List.replicate_succ, renderLines, hln, hout]

/-! ## Claim C7: the scroll target of the normal path -/

/-- The literal query regex used by the spec's example. -/
def rmMatch : RegexM := substrRM (utf8 ("match"))

def envDemo : PreviewEnv :=
  ⟨fun q => if q == ("match") then some rmMatch else none,
   fun _ l => .ok [((255, 255, 255), l)]⟩

def demoLines : List (List Nat) :=
  [utf8 ("line one"), utf8 ("line two"), utf8 ("line three with match"), utf8 ("line four")]

def demoFile : FsFile := ⟨utf8 ("test.rs"), some (fsSize demoLines), true, demoLines⟩

/-- C7 (amended).  In Contents mode with a non-empty compiling query,
on a readable, valid-UTF-8, NUL-free file within the size threshold,
whenever the preview is produced its scroll target is the 1-based
first-matching-line number reduced modulo 2^16 (hence equal to that
line number whenever it is below 65536; `None` when no line matches). -/
theorem C7_scroll_is_first_match_mod_u16 (env : PreviewEnv) (f : FsFile) (q : String)
    (rm : RegexM) (n : Nat)
    (hq : q.isEmpty = false) (hc : env.compile q = some rm)
    (hm : f.metaSize = some n) (hsz : ¬ n > MAX_FILE_SIZE)
    (hr : f.readable = true) (hv : f.lines.all utf8ValidB = true)
    (hnul : f.lines.all (fun l => !l.contains 0) = true)
    (hs : (get_file_preview env f q SearchMode.Contents).isSome = true) :
    (get_file_preview env f q SearchMode.Contents).map (fun p => p.2)
      = some ((firstMatchingLineNum rm f.lines).map (fun v => v % 65536)) := by
  have hread : readToString f = some f.lines := by simp [readToString, hr, hv]
  have hse : searchScan rm f.lines 1
      = (f.lines.findIdx? rm.isMatch).map (fun i => i + 1) :=
    searchScan_eq rm f.lines 0 hv hnul
  obtain ⟨res, hres⟩ := Option.isSome_iff_exists.mp hs
  have hbody : ∃ body,
      renderLines env (some rm) true 0 (f.lines.take MAX_LINES_TO_FORMAT) = some body := by
    revert hres
    unfold get_file_preview
    rw [hm]
    simp only [if_neg hsz]
    rw [hread]
    simp only [hq, hc, Bool.not_false, Bool.true_and, beq_self_eq_true, if_true, and_self]
    cases hrl : renderLines env (some rm) true 0 (f.lines.take MAX_LINES_TO_FORMAT) with
    | none => intro hres; exact absurd hres (by simp)
    | some body => intro _; exact ⟨body, rfl⟩
  obtain ⟨body, hrl⟩ := hbody
  rw [preview_normal_scroll env f q rm n hq hc hm hsz hread body hrl, hse]
  rw [firstMatchingLineNum]

/-- Witness for C7 (amended): the spec's four-line example file with
query `"match"` scrolls to line 3. -/
theorem C7_witness :
    (get_file_preview envDemo demoFile ("match") SearchMode.Contents).map (fun p => p.2)
      = some (some 3) := by
  have h := C7_scroll_is_first_match_mod_u16 envDemo demoFile ("match") rmMatch
    (fsSize demoLines) rfl rfl rfl (by decide) rfl (by decide) (by decide) (by decide)
  rw [h]
  decide

/-! ### C7 counterexample: the `u16` cast truncates large line numbers -/

def rmB : RegexM := substrRM (utf8 ("b"))

def envBig : PreviewEnv :=
  ⟨fun q => if q == ("b") then some rmB else none,
   fun _ l => .ok [((200, 200, 200), l)]⟩

def aLine : List Nat := utf8 ("a")

/-- 65536 non-matching one-byte lines followed by a matching line:
131074 bytes, well under the 512 KiB threshold. -/
def bigLines : List (List Nat) := List.replicate 65536 aLine ++ [utf8 ("b")]

def bigFile : FsFile := ⟨utf8 ("big.txt"), some (fsSize bigLines), true, bigLines⟩

/-- C7 counterexample.  On a ≤ 512 KiB file whose first matching line
is 65537, the preview's scroll target is `some 1` (the `as u16` cast
wraps), not the first-matching-line number. -/
theorem C7_counterexample :
    (get_file_preview envBig bigFile ("b") SearchMode.Contents).map (fun p => p.2)
      = some (some 1)
    ∧ firstMatchingLineNum rmB bigFile.lines = some 65537
    ∧ bigFile.metaSize = some (fsSize bigFile.lines)
    ∧ fsSize bigFile.lines ≤ MAX_FILE_SIZE := by
  have hvA : utf8ValidB aLine = true := by decide
  have hnA : aLine.contains 0 = false := by decide
  have hmA : rmB.isMatch aLine = false := by decide
  have hall : bigLines.all utf8ValidB = true := by
    rw [bigLines, List.all_append, all_replicate utf8ValidB aLine hvA]
    decide
  have hnall : bigLines.all (fun l => !l.contains 0) = true := by
    rw [bigLines, List.all_append, all_replicate (fun l => !l.contains 0) aLine (by decide)]
    decide
  have hscan : searchScan rmB bigLines 1 = some 65537 := by
    rw [bigLines, searchScan_replicate rmB aLine hvA hnA hmA 65536 1 [utf8 ("b")]]
    decide
  have hsize : fsSize bigLines = 131074 := by
    rw [bigLines, fsSize_replicate_append aLine 65536 [utf8 ("b")]]
    decide
  have hsz : ¬ fsSize bigLines > MAX_FILE_SIZE := by
    rw [hsize]; decide
  have hread : readToString bigFile = some bigFile.lines := by
    unfold readToString
    have h1 : bigFile.readable = true := rfl
    have h2 : bigFile.lines.all utf8ValidB = true := hall
    rw [h1, h2]
    rfl
  have htake : bigLines.take MAX_LINES_TO_FORMAT = List.replicate 1000 aLine := by
    rw [bigLines]
    exact take_replicate_append aLine 1000 65536 [utf8 ("b")] (by omega)
  obtain ⟨out, hout, _⟩ := renderLines_replicate envBig (some rmB) true aLine
    (fun i => renderLine_plain envBig rmB i aLine (200, 200, 200) rfl (by decide)) 1000 0
  have hrl : renderLines envBig (some rmB) true 0 (bigFile.lines.take MAX_LINES_TO_FORMAT)
      = some out := by
    show renderLines envBig (some rmB) true 0 (bigLines.take MAX_LINES_TO_FORMAT) = some out
    rw [htake]
    exact hout
  have hmain := preview_normal_scroll envBig bigFile ("b") rmB (fsSize bigLines)
    rfl rfl rfl hsz hread out hrl
  refine ⟨?_, ?_, rfl, ?_⟩
  · rw [hmain]
    show some ((searchScan rmB bigLines 1).map (fun v => v % 65536)) = some (some 1)
    rw [hscan]
    decide
  · have hse : searchScan rmB bigLines 1
        = (bigLines.findIdx? rmB.isMatch).map (fun i => i + 1) :=
      searchScan_eq rmB bigLines 0 hall hnall
    show firstMatchingLineNum rmB bigLines = some 65537
    rw [firstMatchingLineNum, ← hse, hscan]
  · show fsSize bigLines ≤ MAX_FILE_SIZE
    rw [hsize]
    decide

/-! ## Claim C9: the scroll target ignores the 1000-line display cap -/

/-- The full result of the normal path: the rendered body (plus the
truncation notice when the file exceeds the line cap) and the searcher
scroll target. -/
theorem preview_normal_full (env : PreviewEnv) (f : FsFile) (q : String) (rm : RegexM)
    (n : Nat) (hq : q.isEmpty = false) (hc : env.compile q = some rm)
    (hm : f.metaSize = some n) (hsz : ¬ n > MAX_FILE_SIZE)
    (hread : readToString f = some f.lines) (body : List RLine)
    (hrl : renderLines env (some rm) true 0 (f.lines.take MAX_LINES_TO_FORMAT) = some body) :
    get_file_preview env f q SearchMode.Contents
      = some ((if f.lines.length > MAX_LINES_TO_FORMAT then body ++ [truncLine] else body),
          (searchScan rm f.lines 1).map (fun v => v % 65536)) := by
  unfold get_file_preview
  rw [hm]
  simp only [if_neg hsz]
  rw [hread]
  simp only [hq, hc, Bool.not_false, Bool.true_and, beq_self_eq_true, if_true, and_self]
  rw [hrl]

def mLine9 : List Nat := utf8 ("has a match")

def aa9 : List Nat := utf8 ("aa")

/-- 1001 non-matching lines followed by a matching line 1002. -/
def lines9 : List (List Nat) := List.replicate 1001 aa9 ++ [mLine9]

def file9 : FsFile := ⟨utf8 ("big9.txt"), some (fsSize lines9), true, lines9⟩

/-- C9.  A readable 3015-byte file (well under the threshold) with
1002 lines whose only match is on line 1002: the preview text is capped
at 1000 rendered lines plus the truncation notice (1001 lines), yet the
scroll target is 1002 — strictly beyond the returned text. -/
theorem C9_scroll_beyond_truncated_preview :
    (get_file_preview envDemo file9 ("match") SearchMode.Contents).map
        (fun p => (p.1.length, p.2)) = some (1001, some 1002)
    ∧ file9.lines.length = 1002
    ∧ firstMatchingLineNum rmMatch file9.lines = some 1002
    ∧ file9.metaSize = some (fsSize file9.lines)
    ∧ fsSize file9.lines ≤ MAX_FILE_SIZE
    ∧ 1002 > 1001 := by
  have hvA : utf8ValidB aa9 = true := by decide
  have hnA : aa9.contains 0 = false := by decide
  have hmA : rmMatch.isMatch aa9 = false := by decide
  have hall : lines9.all utf8ValidB = true := by
    rw [lines9, List.all_append, all_replicate utf8ValidB aa9 hvA]
    decide
  have hnall : lines9.all (fun l => !l.contains 0) = true := by
    rw [lines9, List.all_append, all_replicate (fun l => !l.contains 0) aa9 (by decide)]
    decide
  have hscan : searchScan rmMatch lines9 1 = some 1002 := by
    rw [lines9, searchScan_replicate rmMatch aa9 hvA hnA hmA 1001 1 [mLine9]]
    decide
  have hsize : fsSize lines9 = 3015 := by
    rw [lines9, fsSize_replicate_append aa9 1001 [mLine9]]
    decide
  have hsz : ¬ fsSize lines9 > MAX_FILE_SIZE := by
    rw [hsize]; decide
  have hread : readToString file9 = some file9.lines := by
    unfold readToString
    have h1 : file9.readable = true := rfl
    have h2 : file9.lines.all utf8ValidB = true := hall
    rw [h1, h2]
    rfl
  have htake : lines9.take MAX_LINES_TO_FORMAT = List.replicate 1000 aa9 := by
    rw [lines9]
    exact take_replicate_append aa9 1000 1001 [mLine9] (by omega)
  obtain ⟨out, hout, hlen⟩ := renderLines_replicate envDemo (some rmMatch) true aa9
    (fun i => renderLine_plain envDemo rmMatch i aa9 (255, 255, 255) rfl (by decide)) 1000 0
  have hrl : renderLines envDemo (some rmMatch) true 0 (file9.lines.take MAX_LINES_TO_FORMAT)
      = some out := by
    show renderLines envDemo (some rmMatch) true 0 (lines9.take MAX_LINES_TO_FORMAT) = some out
    rw [htake]
    exact hout
  have hlength : file9.lines.length = 1002 := by
    show lines9.length = 1002
    rw [lines9]
    simp
  have hmain := preview_normal_full envDemo file9 ("match") rmMatch (fsSize lines9)
    rfl rfl rfl hsz hread out hrl
  have hgt : file9.lines.length > MAX_LINES_TO_FORMAT := by
    rw [hlength]; decide
  rw [if_pos hgt] at hmain
  refine ⟨?_, hlength, ?_, rfl, ?_, by omega⟩
  · rw [hmain]
    show some ((out ++ [truncLine]).length,
        (searchScan rmMatch lines9 1).map (fun v => v % 65536)) = some (1001, some 1002)
    rw [hscan]
    simp [hlen]
  · have hse : searchScan rmMatch lines9 1
        = (lines9.findIdx? rmMatch.isMatch).map (fun i => i + 1) :=
      searchScan_eq rmMatch lines9 0 hall hnall
    show firstMatchingLineNum rmMatch lines9 = some 1002
    rw [firstMatchingLineNum, ← hse, hscan]
  · show fsSize lines9 ≤ MAX_FILE_SIZE
    rw [hsize]
    decide

/-! ## Claim C8: the large-file path -/

/-- Every line the large-file loop emits is a line-number span followed
by either the whole-line highlight block (when the line matches) or a
raw unstyled span. -/
theorem largeLoop_shape (rm : RegexM) : ∀ (ls : List (List Nat)) (idx : Nat) (fm : Option Nat),
    ∀ ln ∈ (largeLoop (some rm) true ls idx fm).1, ∃ k l,
      ln = RLine.mk [numSpan k,
        if rm.isMatch l then Span.mk l none (some Col.darkGray) true else rawSpan l]
  | [], _, _ => by simp [largeLoop]
  | l :: ls, idx, fm => by
    intro ln hln
    simp only [largeLoop] at hln
    by_cases hv : utf8ValidB l
    · rw [if_pos hv] at hln
      rcases List.mem_cons.mp hln with h | h
      · refine ⟨idx + 1, l, ?_⟩
        rw [h]
        simp only [Option.elim, Bool.true_and]
      · exact largeLoop_shape rm ls (idx + 1) _ ln h
    · rw [if_neg hv] at hln
      exact largeLoop_shape rm ls (idx + 1) fm ln hln

/-- On valid lines, the large-file loop's recorded first match is the
pending value or else the `findIdx?`-determined first matching line
(1-based, truncated to 16 bits). -/
theorem largeLoop_scroll (rm : RegexM) : ∀ (ls : List (List Nat)) (idx : Nat) (fm : Option Nat),
    ls.all utf8ValidB = true →
    (largeLoop (some rm) true ls idx fm).2
      = fm.or ((ls.findIdx? rm.isMatch idx).map (fun j => (j + 1) % 65536))
  | [], idx, fm, _ => by
    simp only [largeLoop, List.findIdx?, Option.map_none']
    cases fm <;> rfl
  | l :: ls, idx, fm, hall => by
    simp only [List.all_cons, Bool.and_eq_true] at hall
    simp only [largeLoop, hall.1, if_true, List.findIdx?, Option.elim, Bool.true_and]
    cases hm : rm.isMatch l
    · simp only [Bool.false_eq_true, if_false]
      rw [largeLoop_scroll rm ls (idx + 1) fm hall.2]
    · simp only [if_true]
      rw [largeLoop_scroll rm ls (idx + 1) (fm.or (some ((idx + 1) % 65536))) hall.2]
      cases fm <;> rfl

/-- C8.  Above the size threshold the preview takes the large-file
path: the first output line is the highlighting-disabled warning, no
span anywhere carries an `Rgb` syntax color, every subsequent line is a
line number followed by either the whole-line highlight block (exactly
when the line matches the compiled content regex) or a plain raw span,
and the scroll target is the first matching processed line (1-based,
as `u16`). -/
theorem C8_large_file_path (env : PreviewEnv) (f : FsFile) (q : String) (rm : RegexM)
    (n : Nat) (txt : List RLine) (sc : Option Nat)
    (hm : f.metaSize = some n) (hsz : n > MAX_FILE_SIZE) (hr : f.readable = true)
    (hq : q.isEmpty = false) (hc : env.compile q = some rm)
    (hv : (f.lines.take MAX_LINES_TO_FORMAT).all utf8ValidB = true)
    (hres : get_file_preview env f q SearchMode.Contents = some (txt, sc)) :
    txt.head? = some warnLarge
    ∧ (∀ ln ∈ txt, ∀ sp ∈ ln.spans, ∀ r g b : Nat, sp.fg ≠ some (Col.rgb r g b))
    ∧ (∀ ln ∈ txt.tail, ∃ k l, ln = RLine.mk [numSpan k,
        if rm.isMatch l then Span.mk l none (some Col.darkGray) true else rawSpan l])
    ∧ sc = (firstMatchingLineNum rm (f.lines.take MAX_LINES_TO_FORMAT)).map
        (fun v => v % 65536) := by
  have hlp : get_file_preview env f q SearchMode.Contents
      = some (get_large_file_preview env f q SearchMode.Contents) := by
    unfold get_file_preview
    rw [hm]
    simp only [if_pos hsz]
  rw [hlp] at hres
  injection hres with hres
  unfold get_large_file_preview at hres
  simp only [hr, hq, hc, Bool.not_true, Bool.not_false, Bool.true_and, beq_self_eq_true,
    if_false] at hres
  have htxt : txt = warnLarge
      :: (largeLoop (some rm) true (f.lines.take MAX_LINES_TO_FORMAT) 0 none).1 :=
    (congrArg Prod.fst hres).symm
  have hsc : sc = (largeLoop (some rm) true (f.lines.take MAX_LINES_TO_FORMAT) 0 none).2 :=
    (congrArg Prod.snd hres).symm
  refine ⟨?_, ?_, ?_, ?_⟩
  · rw [htxt]; rfl
  · intro ln hln sp hsp r g b
    rw [htxt] at hln
    rcases List.mem_cons.mp hln with h | h
    · rw [h] at hsp
      simp only [warnLarge, List.mem_singleton] at hsp
      rw [hsp]
      simp
    · obtain ⟨k, l, hshape⟩ := largeLoop_shape rm _ 0 none ln h
      rw [hshape] at hsp
      rcases List.mem_cons.mp hsp with h2 | h2
      · rw [h2]
        simp [numSpan]
      · simp only [List.mem_singleton] at h2
        rw [h2]
        cases rm.isMatch l <;> simp [rawSpan]
  · intro ln hln
    rw [htxt] at hln
    exact largeLoop_shape rm _ 0 none ln hln
  · rw [hsc, largeLoop_scroll rm _ 0 none hv]
    rw [firstMatchingLineNum]
    cases (f.lines.take MAX_LINES_TO_FORMAT).findIdx? rm.isMatch <;> rfl

/-- A 600000-byte (above-threshold) file whose second line matches. -/
def fileL : FsFile :=
  ⟨utf8 ("huge.txt"), some 600000, true,
   [utf8 ("hello"), utf8 ("xx match yy"), utf8 ("bye")]⟩

/-- The large-file preview of `fileL` under the query `"match"`. -/
def largeDemoRes : List RLine × Option Nat :=
  (get_file_preview envDemo fileL ("match") SearchMode.Contents).getD (textRaw [], none)

/-- Witness for C8: the warning heads the output and the scroll target
is the matching line 2. -/
theorem C8_witness :
    largeDemoRes.1.head? = some warnLarge ∧ largeDemoRes.2 = some 2 := by
  have hres : get_file_preview envDemo fileL ("match") SearchMode.Contents
      = some (largeDemoRes.1, largeDemoRes.2) := rfl
  obtain ⟨h1, _, _, h4⟩ := C8_large_file_path envDemo fileL ("match") rmMatch 600000
    largeDemoRes.1 largeDemoRes.2 rfl (by decide) rfl rfl rfl (by decide) hres
  refine ⟨h1, ?_⟩
  rw [h4]
  decide

end Glancr
